import Mathlib

/-!
# Verification of the TRAKE sequence discovery and scoring engine

Shallow embedding of the sequence discovery, validation, scoring and ranking
pipeline of `static/script.js` (functions `discoverSequences`, `findBestPivot`,
`calculateFrameEventSimilarity`, `computeEventFrameSimilarityMatrix`,
`buildSequenceAroundPivot`, `getVideoFramesInRange`, `findBestMatchFromMatrix`,
`isSequenceValid`, `scoreAndRankSequences`, `calculateEnhancedSequenceScore`,
`calculateVariance`).

Embedding conventions:
* JavaScript numbers are embedded as exact rationals (`ℚ`) for similarity
  scores and as integers (`ℤ`) for frame numbers.  `Math.sqrt` is kept
  abstract as a function parameter `sqrtQ : ℚ → ℚ`, since both the code and
  the specification apply the same square root to the same argument.
* The external services (initial retrieval, `/video/{id}/frames`, the
  single-pair similarity endpoint and the batch matrix endpoint) are
  parameters: `videoFramesOf`, `provider`, `batchApi`.  `Math.random()` draws
  consumed by the similarity fallback are modelled by a parameter
  `randomDraw`.
* The mutable slot array `sequence` of `buildSequenceAroundPivot` is embedded
  as a total function `ℤ → Option Slot` together with the fixed length
  `events.length`: this models JavaScript array semantics faithfully,
  including writes and reads at index `-1` (which become ordinary object
  properties, invisible to `Array.prototype.filter`).
* Reading `.frameNumber` from a `null` array slot throws a `TypeError` in
  JavaScript; fallible steps therefore return `Except String _`.
-/

deriving instance DecidableEq for Except

/-- A video keyframe as delivered by the retrieval service: identifier,
owning video, stable frame number (`keyframe_n`) and the similarity score it
carried from initial retrieval. -/
structure Frame where
  id : Nat
  video_id : Nat
  keyframe_n : Int
  similarity : ℚ
deriving DecidableEq, Repr

/-- One ordered event of a temporal query (only the free-text description is
consumed by the engine). -/
structure Event where
  query : String
deriving DecidableEq, Repr

/-- One assigned slot of a sequence, as constructed by
`buildSequenceAroundPivot`. -/
structure Slot where
  frame : Frame
  similarity : ℚ
  frameNumber : Int
  videoId : Nat
  isPivot : Bool
deriving DecidableEq, Repr

/-- The tunable `algorithmConfig` object of the script. -/
structure AlgorithmConfig where
  similarityThreshold : ℚ
  scoreThreshold : ℚ
  topK : Nat
  maxTemporalGap : ℚ
  searchWindow : Int
  minSequenceCompleteness : ℚ
  temporalWeight : ℚ
  completenessWeight : ℚ
deriving DecidableEq, Repr

/-- The default configuration literal of the script. -/
def defaultConfig : AlgorithmConfig :=
  { similarityThreshold := 0
    scoreThreshold := 0
    topK := 10
    maxTemporalGap := 150
    searchWindow := 3000
    minSequenceCompleteness := 0.1
    temporalWeight := 0.3
    completenessWeight := 0.2 }

/-- Result object of `findBestPivot` (`{match, similarity, eventIndex}`). -/
structure PivotResult where
  matchFrame : Option Frame
  similarity : ℚ
  eventIndex : Int
deriving DecidableEq, Repr

/-- The `for` loop of `findBestPivot`: scan events left to right, keeping the
first strict improvement over the running best (initially similarity `0`,
event index `-1`, match `null`). -/
def findBestPivotGo (sim : Frame → String → ℚ) (candidate : Frame) :
    PivotResult → Nat → List Event → PivotResult
  | st, _, [] => st
  | st, i, e :: rest =>
    let s := sim candidate e.query
    findBestPivotGo sim candidate
      (if st.similarity < s then ⟨some candidate, s, (i : Int)⟩ else st) (i + 1) rest

/-- Embeds `findBestPivot(candidate, events)`; the per-event similarity
lookups of the loop are abstracted into `sim`. -/
def findBestPivot (sim : Frame → String → ℚ) (candidate : Frame)
    (events : List Event) : PivotResult :=
  findBestPivotGo sim candidate ⟨none, 0, -1⟩ 0 events

/-- Embeds `calculateFrameEventSimilarity`.  The provider answers with
`some s` when the `/similarity/frame-text` endpoint succeeds; otherwise the
code falls back to `min(frame.similarity + (Math.random() - 0.5) * 0.1, 1.0)`
(the error path uses factor `0.05`; both fallbacks are modelled with the
response-failure factor, the only difference being the magnitude of the
random jitter).  The session cache memoizes a deterministic function of the
key and is therefore omitted. -/
def calculateFrameEventSimilarity (provider : Frame → String → Option ℚ)
    (randomDraw : Frame → String → ℚ) (frame : Frame) (eventQuery : String) : ℚ :=
  match provider frame eventQuery with
  | some s => s
  | none => min (frame.similarity + (randomDraw frame eventQuery - 0.5) * 0.1) 1

/-- Embeds `computeEventFrameSimilarityMatrix`: one batched call when the
batch endpoint answers, otherwise the individual-call fallback
(`computeEventFrameSimilarityMatrixFallback`), which fills the matrix row by
row with `calculateFrameEventSimilarity`.  Batching sizes and inter-batch
delays only affect timing, not values.  The debug-mode frame limiting is
outside the specified core (debug UI is out of scope) and is not modelled. -/
def computeEventFrameSimilarityMatrix
    (batchApi : List Event → List Frame → Option (List (List ℚ)))
    (provider : Frame → String → Option ℚ) (randomDraw : Frame → String → ℚ)
    (events : List Event) (frames : List Frame) : List (List ℚ) :=
  match batchApi events frames with
  | some m => m
  | none =>
    events.map fun e =>
      frames.map fun f => calculateFrameEventSimilarity provider randomDraw f e.query

/-- Embeds `getVideoFramesInRange(videoId, minFrameNumber, maxFrameNumber)`:
fetch all frames of the video and keep those with `keyframe_n` in the
inclusive range. -/
def getVideoFramesInRange (videoFramesOf : Nat → List Frame) (videoId : Nat)
    (minFrameNumber maxFrameNumber : Int) : List Frame :=
  (videoFramesOf videoId).filter fun f =>
    decide (minFrameNumber ≤ f.keyframe_n) && decide (f.keyframe_n ≤ maxFrameNumber)

/-- The window of frames `buildSequenceAroundPivot` fetches around a pivot:
`[max(1, pivotFrameNumber − searchWindow), pivotFrameNumber + searchWindow]`
within the pivot frame's own video. -/
def windowFrames (cfg : AlgorithmConfig) (videoFramesOf : Nat → List Frame)
    (pivotFrame : Frame) : List Frame :=
  getVideoFramesInRange videoFramesOf pivotFrame.video_id
    (max 1 (pivotFrame.keyframe_n - cfg.searchWindow))
    (pivotFrame.keyframe_n + cfg.searchWindow)

/-- The frame identity test used by `findBestMatchFromMatrix` when locating a
candidate inside `allFrames` (`findIndex` on `keyframe_n` and `video_id`). -/
def frameMatches (c : Frame) (f : Frame) : Bool :=
  decide (f.keyframe_n = c.keyframe_n) && decide (f.video_id = c.video_id)

/-- A candidate frame paired with its matrix similarity and its column index,
as accumulated in `candidatesWithSimilarity`. -/
structure Cand where
  frame : Frame
  similarity : ℚ
  frameIdx : Nat
deriving DecidableEq, Repr

/-- The accumulation loop of `findBestMatchFromMatrix`: each candidate frame
is located in `allFrames` (`findIndex` returning `-1` when absent is
`findIdx?` returning `none`); it is kept only when the located column index
is inside the matrix row. -/
def candidatesWithSimilarity (row : List ℚ) (allFrames candidateFrames : List Frame) :
    List Cand :=
  candidateFrames.filterMap fun c =>
    match allFrames.findIdx? (frameMatches c) with
    | some j => if j < row.length then some ⟨c, row.getD j 0, j⟩ else none
    | none => none

/-- Descending-similarity comparison used to sort candidates
(`(a, b) => b.similarity - a.similarity`; `Array.prototype.sort` is stable,
as is insertion sort). -/
def candGE (a b : Cand) : Prop := b.similarity ≤ a.similarity

instance : DecidableRel candGE := fun a b =>
  inferInstanceAs (Decidable (b.similarity ≤ a.similarity))

instance : IsTotal Cand candGE := ⟨fun a b => le_total b.similarity a.similarity⟩

instance : IsTrans Cand candGE := ⟨fun _ _ _ h1 h2 => le_trans h2 h1⟩

/-- The row `similarityMatrix[eventIdx]` (a negative index would make the
JavaScript code fault on `.length`; the pipeline only ever passes
non-negative event indices, modelled by the empty row). -/
def matrixRow (similarityMatrix : List (List ℚ)) (eventIdx : Int) : List ℚ :=
  if 0 ≤ eventIdx then similarityMatrix.getD eventIdx.toNat [] else []

/-- The temporal-order test of `findBestMatchFromMatrix`: forward fill keeps
a candidate only when the already-placed slot immediately before it has a
strictly smaller frame number; backward fill only when the already-placed
slot immediately after it has a strictly larger frame number; a missing
neighbour imposes no constraint. -/
def maintainsOrder (sequence : Int → Option Slot) (eventIdx : Int)
    (direction : Bool) (candidateFrame : Frame) : Bool :=
  if direction then
    match sequence (eventIdx - 1) with
    | some s => decide (s.frameNumber < candidateFrame.keyframe_n)
    | none => true
  else
    match sequence (eventIdx + 1) with
    | some s => decide (candidateFrame.keyframe_n < s.frameNumber)
    | none => true

/-- The outcome object `{frame, similarity}` of `findBestMatchFromMatrix`. -/
structure MatchResult where
  frame : Frame
  similarity : ℚ
deriving DecidableEq, Repr

/-- Embeds `findBestMatchFromMatrix`: build the candidate list with matrix
similarities, sort it by similarity descending (stably), and return the first
candidate that maintains temporal order, or `null`. -/
def findBestMatchFromMatrix (sequence : Int → Option Slot) (eventIdx : Int)
    (candidateFrames allFrames : List Frame) (similarityMatrix : List (List ℚ))
    (direction : Bool) : Option MatchResult :=
  if candidateFrames.isEmpty then none
  else
    ((List.insertionSort candGE
        (candidatesWithSimilarity (matrixRow similarityMatrix eventIdx)
          allFrames candidateFrames)).find?
      fun c => maintainsOrder sequence eventIdx direction c.frame).map
      fun c => ⟨c.frame, c.similarity⟩

/-- The slot-array write `sequence[eventIdx] = {...}` (function update). -/
def setSlot (seq : Int → Option Slot) (idx : Int) (s : Slot) : Int → Option Slot :=
  fun j => if j = idx then some s else seq j

/-- The initial slot array of `buildSequenceAroundPivot`: all `null` except
the pivot slot, which carries the pivot frame, its own similarity, its frame
number, its video and `isPivot = true`.  (The write also models a negative
`pivotEventIndex`, which in JavaScript becomes an object property that the
final `Array.prototype.filter` does not visit.) -/
def initSeq (pivotFrame : Frame) (pivotEventIndex : Int) : Int → Option Slot :=
  fun j =>
    if j = pivotEventIndex then
      some ⟨pivotFrame, pivotFrame.similarity, pivotFrame.keyframe_n,
        pivotFrame.video_id, true⟩
    else none

/-- One iteration of the backward fill loop of `buildSequenceAroundPivot`.
The guard reads `sequence[eventIdx + 1].frameNumber` after the threshold
check; when that slot is `null` the JavaScript code throws a `TypeError`. -/
def backStep (cfg : AlgorithmConfig) (similarityMatrix : List (List ℚ))
    (videoFrames : List Frame) (minFrameNumber pivotFrameNumber : Int)
    (seq : Int → Option Slot) (eventIdx : Int) : Except String (Int → Option Slot) :=
  match findBestMatchFromMatrix seq eventIdx
      (videoFrames.filter fun f =>
        decide (minFrameNumber ≤ f.keyframe_n) &&
          decide (f.keyframe_n < pivotFrameNumber))
      videoFrames similarityMatrix false with
  | none => Except.ok seq
  | some bm =>
    if cfg.similarityThreshold ≤ bm.similarity then
      match seq (eventIdx + 1) with
      | none => Except.error "TypeError: cannot read frameNumber of null"
      | some nxt =>
        if bm.frame.keyframe_n < nxt.frameNumber then
          Except.ok (setSlot seq eventIdx
            ⟨bm.frame, bm.similarity, bm.frame.keyframe_n, bm.frame.video_id, false⟩)
        else Except.ok seq
    else Except.ok seq

/-- One iteration of the forward fill loop of `buildSequenceAroundPivot`;
symmetric to `backStep`, reading `sequence[eventIdx - 1].frameNumber`. -/
def forwardStep (cfg : AlgorithmConfig) (similarityMatrix : List (List ℚ))
    (videoFrames : List Frame) (maxFrameNumber pivotFrameNumber : Int)
    (seq : Int → Option Slot) (eventIdx : Int) : Except String (Int → Option Slot) :=
  match findBestMatchFromMatrix seq eventIdx
      (videoFrames.filter fun f =>
        decide (pivotFrameNumber < f.keyframe_n) &&
          decide (f.keyframe_n ≤ maxFrameNumber))
      videoFrames similarityMatrix true with
  | none => Except.ok seq
  | some bm =>
    if cfg.similarityThreshold ≤ bm.similarity then
      match seq (eventIdx - 1) with
      | none => Except.error "TypeError: cannot read frameNumber of null"
      | some prev =>
        if prev.frameNumber < bm.frame.keyframe_n then
          Except.ok (setSlot seq eventIdx
            ⟨bm.frame, bm.similarity, bm.frame.keyframe_n, bm.frame.video_id, false⟩)
        else Except.ok seq
    else Except.ok seq

/-- Embeds `buildSequenceAroundPivot(pivotFrame, pivotEventIndex, events)`.
The pivot slot is placed first (carrying the pivot frame's own similarity),
the window frames are fetched and the similarity matrix computed, then the
backward loop (`pivotEventIndex - 1` down to `0`) and the forward loop
(`pivotEventIndex + 1` up to `events.length - 1`) fill the other slots, and
the non-null slots are returned in event-index order. -/
def buildSequenceAroundPivot (cfg : AlgorithmConfig)
    (matrixOf : List Event → List Frame → List (List ℚ))
    (videoFramesOf : Nat → List Frame) (pivotFrame : Frame)
    (pivotEventIndex : Int) (events : List Event) : Except String (List Slot) :=
  if (windowFrames cfg videoFramesOf pivotFrame).isEmpty then
    Except.ok ((List.range events.length).filterMap fun i =>
      initSeq pivotFrame pivotEventIndex (i : Int))
  else
    Except.bind
      (((List.range pivotEventIndex.toNat).reverse.map fun k => (k : Int)).foldlM
        (backStep cfg (matrixOf events (windowFrames cfg videoFramesOf pivotFrame))
          (windowFrames cfg videoFramesOf pivotFrame)
          (max 1 (pivotFrame.keyframe_n - cfg.searchWindow)) pivotFrame.keyframe_n)
        (initSeq pivotFrame pivotEventIndex))
      fun seqB =>
        Except.bind
          ((((List.range events.length).map fun k => (k : Int)).filter
              fun j => decide (pivotEventIndex < j)).foldlM
            (forwardStep cfg (matrixOf events (windowFrames cfg videoFramesOf pivotFrame))
              (windowFrames cfg videoFramesOf pivotFrame)
              (pivotFrame.keyframe_n + cfg.searchWindow) pivotFrame.keyframe_n)
            seqB)
          fun seqF =>
            Except.ok ((List.range events.length).filterMap fun i => seqF (i : Int))

/-- The frame number the validator and scorer read from a slot
(`slot.frameNumber || slot.frame?.keyframe_n`): the falsy fallback fires
exactly when `frameNumber` is `0`. -/
def slotFN (s : Slot) : Int :=
  if s.frameNumber = 0 then s.frame.keyframe_n else s.frameNumber

/-- The temporal-ordering loop of `isSequenceValid`: every consecutive pair
of slots must have strictly increasing frame numbers. -/
def framesStrictlyIncreasing : List Slot → Bool
  | a :: b :: rest => decide (slotFN a < slotFN b) && framesStrictlyIncreasing (b :: rest)
  | _ => true

/-- Embeds `isSequenceValid(sequence, events)`: reject empty sequences,
sequences below the completeness floor, and sequences out of temporal
order. -/
def isSequenceValid (cfg : AlgorithmConfig) (sequence : List Slot)
    (events : List Event) : Bool :=
  if sequence.isEmpty then false
  else if (sequence.length : ℚ) / (events.length : ℚ) < cfg.minSequenceCompleteness then
    false
  else framesStrictlyIncreasing sequence

/-- The loop body of `discoverSequences` for one candidate: find the best
pivot, discard the candidate when the pivot similarity is strictly below the
similarity threshold, otherwise build a sequence around the pivot and keep it
when valid. -/
def processCandidate (cfg : AlgorithmConfig) (sim : Frame → String → ℚ)
    (matrixOf : List Event → List Frame → List (List ℚ))
    (videoFramesOf : Nat → List Frame) (events : List Event)
    (acc : List (List Slot)) (candidate : Frame) : Except String (List (List Slot)) :=
  let bestPivot := findBestPivot sim candidate events
  if bestPivot.similarity < cfg.similarityThreshold then Except.ok acc
  else
    Except.bind
      (buildSequenceAroundPivot cfg matrixOf videoFramesOf candidate
        bestPivot.eventIndex events)
      fun sequence =>
        if isSequenceValid cfg sequence events then Except.ok (acc ++ [sequence])
        else Except.ok acc

/-- Embeds `discoverSequences(events, candidates)` (Phase 2). -/
def discoverSequences (cfg : AlgorithmConfig) (sim : Frame → String → ℚ)
    (matrixOf : List Event → List Frame → List (List ℚ))
    (videoFramesOf : Nat → List Frame) (events : List Event)
    (candidates : List Frame) : Except String (List (List Slot)) :=
  candidates.foldlM (processCandidate cfg sim matrixOf videoFramesOf events) []

/-- Embeds `calculateVariance(similarities)` — despite its name the function
returns the standard deviation (`Math.sqrt` of the variance). -/
def calculateVariance (sqrtQ : ℚ → ℚ) (similarities : List ℚ) : ℚ :=
  if similarities.isEmpty then 0
  else
    let mean := similarities.sum / (similarities.length : ℚ)
    let variance :=
      (similarities.map fun s => (s - mean) ^ 2).sum / (similarities.length : ℚ)
    sqrtQ variance

/-- The list of consecutive slot pairs of a sequence (the `i`/`i-1` loops of
the scorer run over exactly these pairs, first component the earlier slot). -/
def consecutivePairs (l : List Slot) : List (Slot × Slot) := l.zip l.tail

/-- The score breakdown object of `calculateEnhancedSequenceScore`. -/
structure ScoreBreakdown where
  baseSimilarity : ℚ
  temporal : ℚ
  completeness : ℚ
  consistency : ℚ
  order : ℚ
deriving DecidableEq, Repr

/-- Result of `calculateEnhancedSequenceScore`.  For an empty sequence the
code returns `{finalScore: 0, breakdown: {}}`; the empty breakdown object is
modelled by zeros. -/
structure ScoreResult where
  finalScore : ℚ
  breakdown : ScoreBreakdown
deriving DecidableEq, Repr

/-- Embeds `calculateEnhancedSequenceScore(sequence, events)`. -/
def calculateEnhancedSequenceScore (cfg : AlgorithmConfig) (sqrtQ : ℚ → ℚ)
    (sequence : List Slot) (events : List Event) : ScoreResult :=
  if sequence.isEmpty then ⟨0, 0, 0, 0, 0, 0⟩
  else
    let similarities := sequence.map (·.similarity)
    let baseSimilarityScore := similarities.sum / (similarities.length : ℚ)
    let temporalScore :=
      if 1 < sequence.length then
        let totalGapPenalty :=
          ((consecutivePairs sequence).map fun p =>
            min (((slotFN p.2 - slotFN p.1 : Int) : ℚ) / cfg.maxTemporalGap) 1).sum
        max 0 (1 - totalGapPenalty / ((sequence.length : ℚ) - 1))
      else 1
    let completeness := (sequence.length : ℚ) / (events.length : ℚ)
    let completenessScore :=
      if cfg.minSequenceCompleteness ≤ completeness then completeness
      else completeness * 0.5
    let consistencyBonus := max 0 (1 - calculateVariance sqrtQ similarities)
    let correctOrderCount :=
      (consecutivePairs sequence).countP fun p => decide (slotFN p.1 < slotFN p.2)
    let orderBonus :=
      if 1 < sequence.length then (correctOrderCount : ℚ) / ((sequence.length : ℚ) - 1)
      else 1
    let finalScore :=
      baseSimilarityScore * 0.4 + temporalScore * cfg.temporalWeight +
        completenessScore * cfg.completenessWeight + consistencyBonus * 0.1 +
        orderBonus * 0.1
    ⟨finalScore,
      ⟨baseSimilarityScore, temporalScore, completenessScore, consistencyBonus, orderBonus⟩⟩

/-- The metadata object attached by `scoreAndRankSequences`.  `Math.min` /
`Math.max` of an empty spread would be `±Infinity`; that is modelled by
`none` (unreachable through the pipeline, whose valid sequences are
non-empty). -/
structure SeqMetadata where
  videoId : Option Nat
  startFrame : Option Int
  endFrame : Option Int
  duration : Option Int
  completeness : ℚ
deriving DecidableEq, Repr

/-- The metadata computation of `scoreAndRankSequences`. -/
def sequenceMetadata (sequence : List Slot) (events : List Event) : SeqMetadata :=
  let frameNumbers := sequence.map slotFN
  { videoId := sequence.head?.map (·.videoId)
    startFrame := frameNumbers.min?
    endFrame := frameNumbers.max?
    duration :=
      match frameNumbers.max?, frameNumbers.min? with
      | some a, some b => some (a - b)
      | _, _ => none
    completeness := (sequence.length : ℚ) / (events.length : ℚ) }

/-- One ranked result pushed by `scoreAndRankSequences`. -/
structure RankedResult where
  sequence : List Slot
  score : ℚ
  scoreBreakdown : ScoreBreakdown
  metadata : SeqMetadata
deriving DecidableEq, Repr

/-- The filtering step of `scoreAndRankSequences`: score a sequence and keep
it only when the final score reaches the score threshold. -/
def scoreKeep (cfg : AlgorithmConfig) (sqrtQ : ℚ → ℚ) (events : List Event)
    (sequence : List Slot) : Option RankedResult :=
  let scoreResult := calculateEnhancedSequenceScore cfg sqrtQ sequence events
  if cfg.scoreThreshold ≤ scoreResult.finalScore then
    some ⟨sequence, scoreResult.finalScore, scoreResult.breakdown,
      sequenceMetadata sequence events⟩
  else none

/-- Descending-score comparison of the final `results.sort`
(`(a, b) => b.score - a.score`; `Array.prototype.sort` is stable, as is
insertion sort). -/
def scoreGE (a b : RankedResult) : Prop := b.score ≤ a.score

instance : DecidableRel scoreGE := fun a b =>
  inferInstanceAs (Decidable (b.score ≤ a.score))

instance : IsTotal RankedResult scoreGE := ⟨fun a b => le_total b.score a.score⟩

instance : IsTrans RankedResult scoreGE := ⟨fun _ _ _ h1 h2 => le_trans h2 h1⟩

/-- Embeds `scoreAndRankSequences(sequences, events)` (Phase 3): keep the
sequences meeting the score threshold, then sort by score descending. -/
def scoreAndRankSequences (cfg : AlgorithmConfig) (sqrtQ : ℚ → ℚ)
    (sequences : List (List Slot)) (events : List Event) : List RankedResult :=
  List.insertionSort scoreGE (sequences.filterMap (scoreKeep cfg sqrtQ events))

/-- Phases 2 and 3 of `performTRAKESequenceSearch`: sequence discovery
followed by scoring and ranking. -/
def runPipeline (cfg : AlgorithmConfig) (sqrtQ : ℚ → ℚ)
    (sim : Frame → String → ℚ)
    (matrixOf : List Event → List Frame → List (List ℚ))
    (videoFramesOf : Nat → List Frame) (events : List Event)
    (candidates : List Frame) : Except String (List RankedResult) :=
  (discoverSequences cfg sim matrixOf videoFramesOf events candidates).map
    fun sequences => scoreAndRankSequences cfg sqrtQ sequences events

/-- The pipeline with its external similarity services made explicit: the
single-pair similarity lookups go through `calculateFrameEventSimilarity`
and the matrix through `computeEventFrameSimilarityMatrix`, both of which
consult `randomDraw` only on their fallback paths. -/
def runPipelineIO (cfg : AlgorithmConfig) (sqrtQ : ℚ → ℚ)
    (provider : Frame → String → Option ℚ)
    (batchApi : List Event → List Frame → Option (List (List ℚ)))
    (randomDraw : Frame → String → ℚ) (videoFramesOf : Nat → List Frame)
    (events : List Event) (candidates : List Frame) :
    Except String (List RankedResult) :=
  runPipeline cfg sqrtQ (calculateFrameEventSimilarity provider randomDraw)
    (computeEventFrameSimilarityMatrix batchApi provider randomDraw)
    videoFramesOf events candidates

/-! ## Specification-side definitions

These definitions transcribe the wording of the specification (claims C4 and
C6/C8 auxiliaries); they are compared with the code-derived definitions
above. -/

/-- Spec: baseSimilarity is the arithmetic mean of the slot similarities. -/
def specBaseSimilarity (sequence : List Slot) : ℚ :=
  (sequence.map (·.similarity)).sum / (sequence.length : ℚ)

/-- Spec: temporal is `1 − mean(min(gap_i / maxTemporalGap, 1))` over
consecutive frame-number gaps, and `1` for a single-slot sequence. -/
def specTemporal (cfg : AlgorithmConfig) (sequence : List Slot) : ℚ :=
  if sequence.length ≤ 1 then 1
  else
    1 - ((consecutivePairs sequence).map fun p =>
          min (((slotFN p.2 - slotFN p.1 : Int) : ℚ) / cfg.maxTemporalGap) 1).sum /
        ((sequence.length : ℚ) - 1)

/-- Spec: completeness is `len(sequence)/len(events)` when at least
`minSequenceCompleteness`, else half that ratio. -/
def specCompleteness (cfg : AlgorithmConfig) (sequence : List Slot)
    (events : List Event) : ℚ :=
  let ratio := (sequence.length : ℚ) / (events.length : ℚ)
  if cfg.minSequenceCompleteness ≤ ratio then ratio else ratio / 2

/-- Spec: the standard deviation of a list (square root of the mean squared
deviation from the mean). -/
def specStddev (sqrtQ : ℚ → ℚ) (xs : List ℚ) : ℚ :=
  sqrtQ ((xs.map fun x => (x - xs.sum / (xs.length : ℚ)) ^ 2).sum / (xs.length : ℚ))

/-- Spec: consistency is `max(0, 1 − stddev(similarities))`. -/
def specConsistency (sqrtQ : ℚ → ℚ) (sequence : List Slot) : ℚ :=
  max 0 (1 - specStddev sqrtQ (sequence.map (·.similarity)))

/-- Spec: order is the fraction of consecutive pairs with strictly increasing
frame numbers (`1` for a single-slot sequence, where there are no pairs). -/
def specOrder (sequence : List Slot) : ℚ :=
  if sequence.length ≤ 1 then 1
  else
    (((consecutivePairs sequence).countP fun p => decide (slotFN p.1 < slotFN p.2) : ℕ) : ℚ) /
      ((sequence.length : ℚ) - 1)

/-- The maximum similarity `findBestPivot` can observe, floored at the
initial running best `0`. -/
def pivotMaxSim (sim : Frame → String → ℚ) (candidate : Frame)
    (events : List Event) : ℚ :=
  (events.map fun e => sim candidate e.query).foldr max 0

/-- A slot whose similarity is an entry of the similarity matrix, in the
column located for its own frame (claim C8's notion of a similarity "coming
from the matrix"). -/
def slotFromMatrix (similarityMatrix : List (List ℚ)) (videoFrames : List Frame)
    (s : Slot) : Prop :=
  ∃ i j : Nat, videoFrames.findIdx? (frameMatches s.frame) = some j ∧
    j < (similarityMatrix.getD i []).length ∧
    s.similarity = (similarityMatrix.getD i []).getD j 0

/-! ## Helper lemmas -/

lemma le_foldr_max_init (a : ℚ) : ∀ l : List ℚ, a ≤ l.foldr max a
  | [] => le_refl a
  | x :: t => le_trans (le_foldr_max_init a t) (le_max_right x _)

lemma le_foldr_max_of_mem (a : ℚ) : ∀ {l : List ℚ} {x : ℚ}, x ∈ l → x ≤ l.foldr max a
  | y :: t, x, hx => by
    rcases List.mem_cons.mp hx with h | h
    · exact h ▸ le_max_left _ _
    · exact le_trans (le_foldr_max_of_mem a h) (le_max_right y _)

lemma foldr_max_cases (a : ℚ) : ∀ l : List ℚ, l.foldr max a = a ∨ l.foldr max a ∈ l
  | [] => Or.inl rfl
  | x :: t => by
    rcases max_choice x (t.foldr max a) with h | h
    · exact Or.inr (by rw [List.foldr_cons, h]; exact List.mem_cons_self x t)
    · rcases foldr_max_cases a t with h2 | h2
      · exact Or.inl (by rw [List.foldr_cons, h, h2])
      · exact Or.inr (by rw [List.foldr_cons, h]; exact List.mem_cons_of_mem x h2)

lemma findBestPivotGo_le (sim : Frame → String → ℚ) (cand : Frame) :
    ∀ (es : List Event) (st : PivotResult) (i : Nat),
      (∀ e ∈ es, sim cand e.query ≤ st.similarity) →
      findBestPivotGo sim cand st i es = st
  | [], _, _, _ => rfl
  | e :: t, st, i, h => by
    rw [findBestPivotGo]
    rw [if_neg (not_lt.mpr (h e (List.mem_cons_self e t)))]
    exact findBestPivotGo_le sim cand t st (i + 1) fun x hx => h x (List.mem_cons_of_mem e hx)

lemma findBestPivotGo_lt (sim : Frame → String → ℚ) (cand : Frame) :
    ∀ (es : List Event) (st : PivotResult) (i : Nat),
      st.similarity < (es.map fun e => sim cand e.query).foldr max st.similarity →
      findBestPivotGo sim cand st i es =
        ⟨some cand, (es.map fun e => sim cand e.query).foldr max st.similarity,
          (i : Int) + ((es.findIdx fun e =>
            decide (sim cand e.query =
              (es.map fun e => sim cand e.query).foldr max st.similarity)) : Nat)⟩
  | [], st, i, h => absurd h (lt_irrefl _)
  | e :: t, st, i, h => by
    have hM : ((e :: t).map fun x => sim cand x.query).foldr max st.similarity =
        max (sim cand e.query) ((t.map fun x => sim cand x.query).foldr max st.similarity) := by
      simp
    set s := sim cand e.query with hs
    set Mt0 := (t.map fun x => sim cand x.query).foldr max st.similarity with hMt0
    set M := ((e :: t).map fun x => sim cand x.query).foldr max st.similarity with hMdef
    by_cases hsM : s = M
    · -- the head attains the maximum: the update happens here and is final
      have hstlt : st.similarity < s := hsM ▸ h
      rw [findBestPivotGo, if_pos hstlt]
      rw [findBestPivotGo_le sim cand t ⟨some cand, s, (i : Int)⟩ (i + 1)
        (fun x hx => by
          have h1 : sim cand x.query ≤ Mt0 :=
            le_foldr_max_of_mem _ (List.mem_map_of_mem (fun y => sim cand y.query) hx)
          have h2 : Mt0 ≤ M := hM ▸ le_max_right _ _
          exact le_trans h1 (le_trans h2 (le_of_eq hsM.symm)))]
      have hidx : ((e :: t).findIdx fun x => decide (sim cand x.query = M)) = 0 := by
        rw [List.findIdx_cons]
        simp [← hs, hsM]
      rw [hidx, hsM]
      simp
    · -- the head does not attain the maximum: recurse
      have hsle : s ≤ M := hM ▸ le_max_left _ _
      have hslt : s < M := lt_of_le_of_ne hsle hsM
      have hMt0M : Mt0 = M := by
        rcases max_choice s Mt0 with hc | hc
        · exact absurd (hM.trans hc).symm hsM
        · exact (hM.trans hc).symm
      have hstep : findBestPivotGo sim cand st i (e :: t) =
          findBestPivotGo sim cand
            (if st.similarity < s then ⟨some cand, s, (i : Int)⟩ else st) (i + 1) t := by
        rw [findBestPivotGo]
      set st2 := if st.similarity < s then (⟨some cand, s, (i : Int)⟩ : PivotResult) else st
        with hst2
      have hst2sim : st2.similarity < M := by
        by_cases hcond : st.similarity < s
        · rw [hst2, if_pos hcond]; exact hslt
        · rw [hst2, if_neg hcond]; exact lt_of_lt_of_le h (le_of_eq hMdef.symm)
      have hMt : (t.map fun x => sim cand x.query).foldr max st2.similarity = M := by
        apply le_antisymm
        · rcases foldr_max_cases st2.similarity (t.map fun x => sim cand x.query) with hc | hc
          · rw [hc]; exact le_of_lt hst2sim
          · exact le_trans (le_foldr_max_of_mem st.similarity hc) (le_of_eq hMt0M)
        · rw [← hMt0M]
          rcases foldr_max_cases st.similarity (t.map fun x => sim cand x.query) with hc | hc
          · exact absurd (hMt0M ▸ hc ▸ h) (lt_irrefl _)
          · exact le_foldr_max_of_mem st2.similarity hc
      have hrec := findBestPivotGo_lt sim cand t st2 (i + 1) (hMt.symm ▸ hst2sim)
      rw [hstep, hrec, hMt]
      have hheadfalse : ((e :: t).findIdx fun x => decide (sim cand x.query = M)) =
          (t.findIdx fun x => decide (sim cand x.query = M)) + 1 := by
        rw [List.findIdx_cons]
        simp [← hs, hsM]
      rw [hheadfalse]
      congr 1
      push_cast
      ring

lemma find_first_high {α : Type} (key : α → ℚ) (p : α → Bool) :
    ∀ (l : List α) (m : α), l.Pairwise (fun a b => key b ≤ key a) →
      l.find? p = some m → ∀ c ∈ l, key m < key c → p c = false
  | [], m, _, hfind => by simp at hfind
  | a :: t, m, hp, hfind => by
    intro c hc hkey
    rw [List.find?_cons] at hfind
    cases hpa : p a with
    | true =>
      rw [hpa] at hfind
      have hma : a = m := by injection hfind
      rcases List.mem_cons.mp hc with hca | hct
      · exact absurd (hca ▸ hma ▸ hkey) (lt_irrefl _)
      · exact absurd (hma ▸ (List.pairwise_cons.mp hp).1 c hct) (not_le.mpr hkey)
    | false =>
      rw [hpa] at hfind
      rcases List.mem_cons.mp hc with hca | hct
      · exact hca ▸ hpa
      · exact find_first_high key p t m (List.pairwise_cons.mp hp).2 hfind c hct hkey

lemma foldlM_except_inv {σ ι : Type} {P : σ → Prop} {f : σ → ι → Except String σ}
    (hstep : ∀ s i s2, P s → f s i = Except.ok s2 → P s2) :
    ∀ (l : List ι) (s0 sEnd : σ), P s0 → l.foldlM f s0 = Except.ok sEnd → P sEnd
  | [], s0, sEnd, h0, hf => by
    simp only [List.foldlM_nil] at hf
    injection hf with h
    exact h ▸ h0
  | i :: t, s0, sEnd, h0, hf => by
    rw [List.foldlM_cons] at hf
    cases hfi : f s0 i with
    | error e => rw [hfi] at hf; simp [Bind.bind, Except.bind] at hf
    | ok s1 =>
      rw [hfi] at hf
      simp only [Bind.bind, Except.bind] at hf
      exact foldlM_except_inv hstep t s1 sEnd (hstep s0 i s1 h0 hfi) hf

lemma filter_orderedInsert_of_neg {α : Type} (r : α → α → Prop) [DecidableRel r]
    (p : α → Bool) (a : α) (ha : p a = false) :
    ∀ l : List α, (List.orderedInsert r a l).filter p = l.filter p
  | [] => by simp [ha]
  | b :: t => by
    by_cases hr : r a b
    · rw [List.orderedInsert, if_pos hr, List.filter_cons, ha]
      simp
    · rw [List.orderedInsert, if_neg hr, List.filter_cons, List.filter_cons,
        filter_orderedInsert_of_neg r p a ha t]

lemma filter_orderedInsert_of_pos {α : Type} (r : α → α → Prop) [DecidableRel r]
    (p : α → Bool) (a : α) (ha : p a = true)
    (hskip : ∀ b, ¬r a b → p b = false) :
    ∀ l : List α, (List.orderedInsert r a l).filter p = a :: l.filter p
  | [] => by simp [ha]
  | b :: t => by
    by_cases hr : r a b
    · rw [List.orderedInsert, if_pos hr, List.filter_cons, ha]
      simp
    · rw [List.orderedInsert, if_neg hr, List.filter_cons,
        filter_orderedInsert_of_pos r p a ha hskip t, hskip b hr, List.filter_cons,
        hskip b hr]
      simp

lemma filter_insertionSort_eq {α : Type} (r : α → α → Prop) [DecidableRel r]
    (p : α → Bool) (hcompat : ∀ a b, p a = true → ¬r a b → p b = false) :
    ∀ l : List α, (List.insertionSort r l).filter p = l.filter p
  | [] => rfl
  | a :: t => by
    rw [List.insertionSort, List.filter_cons]
    cases hpa : p a with
    | true =>
      rw [filter_orderedInsert_of_pos r p a hpa (fun b hb => hcompat a b hpa hb),
        filter_insertionSort_eq r p hcompat t]
      simp
    | false =>
      rw [filter_orderedInsert_of_neg r p a hpa, filter_insertionSort_eq r p hcompat t]
      simp

theorem framesStrictlyIncreasing_iff :
    ∀ l : List Slot, framesStrictlyIncreasing l = true ↔
      l.Chain' fun a b => slotFN a < slotFN b
  | [] => by simp [framesStrictlyIncreasing]
  | [a] => by simp [framesStrictlyIncreasing]
  | a :: b :: t => by
    rw [framesStrictlyIncreasing, List.chain'_cons, Bool.and_eq_true, decide_eq_true_eq,
      framesStrictlyIncreasing_iff (b :: t)]

lemma mem_candidatesWithSimilarity {row : List ℚ} {allFrames candidateFrames : List Frame}
    {c : Cand} (hc : c ∈ candidatesWithSimilarity row allFrames candidateFrames) :
    c.frame ∈ candidateFrames ∧
      allFrames.findIdx? (frameMatches c.frame) = some c.frameIdx ∧
      c.frameIdx < row.length ∧ c.similarity = row.getD c.frameIdx 0 := by
  unfold candidatesWithSimilarity at hc
  rw [List.mem_filterMap] at hc
  obtain ⟨x, hx, hfx⟩ := hc
  cases hidx : allFrames.findIdx? (frameMatches x) with
  | none => rw [hidx] at hfx; simp at hfx
  | some j =>
    rw [hidx] at hfx
    dsimp only at hfx
    by_cases hj : j < row.length
    · rw [if_pos hj] at hfx
      injection hfx with hfx
      subst hfx
      exact ⟨hx, hidx, hj, rfl⟩
    · rw [if_neg hj] at hfx; simp at hfx

lemma findBestMatch_eq_some {sequence : Int → Option Slot} {eventIdx : Int}
    {candidateFrames allFrames : List Frame} {similarityMatrix : List (List ℚ)}
    {direction : Bool} {m : MatchResult}
    (hm : findBestMatchFromMatrix sequence eventIdx candidateFrames allFrames
      similarityMatrix direction = some m) :
    maintainsOrder sequence eventIdx direction m.frame = true ∧
      (∃ c ∈ candidatesWithSimilarity (matrixRow similarityMatrix eventIdx)
          allFrames candidateFrames, c.frame = m.frame ∧ c.similarity = m.similarity) ∧
      ∀ c ∈ candidatesWithSimilarity (matrixRow similarityMatrix eventIdx)
          allFrames candidateFrames,
        m.similarity < c.similarity →
          maintainsOrder sequence eventIdx direction c.frame = false := by
  unfold findBestMatchFromMatrix at hm
  by_cases hemp : candidateFrames.isEmpty
  · rw [if_pos hemp] at hm; simp at hm
  · rw [if_neg hemp] at hm
    cases hfind : (List.insertionSort candGE
        (candidatesWithSimilarity (matrixRow similarityMatrix eventIdx)
          allFrames candidateFrames)).find?
        (fun c => maintainsOrder sequence eventIdx direction c.frame) with
    | none => rw [hfind] at hm; simp at hm
    | some c0 =>
      rw [hfind] at hm
      simp only [Option.map_some'] at hm
      injection hm with hm
      subst hm
      refine ⟨?_, ?_, ?_⟩
      · have h1 := List.find?_some hfind
        simpa using h1
      · exact ⟨c0, (List.mem_insertionSort candGE).mp (List.mem_of_find?_eq_some hfind),
          rfl, rfl⟩
      · intro c hc hlt
        have hsorted : (List.insertionSort candGE
            (candidatesWithSimilarity (matrixRow similarityMatrix eventIdx)
              allFrames candidateFrames)).Pairwise
            fun a b => Cand.similarity b ≤ Cand.similarity a :=
          List.sorted_insertionSort candGE _
        exact find_first_high Cand.similarity _ _ c0 hsorted hfind c
          ((List.mem_insertionSort candGE).mpr hc) hlt

/-! ## Claim theorems -/

/-- Claim C7: for every pivot frame and configured searchWindow, window
expansion returns exactly the frames of the pivot's video whose frame number
lies in the inclusive interval
`[max(1, pivotFrameNumber − searchWindow), pivotFrameNumber + searchWindow]`. -/
theorem C7_window_expansion (videoFramesOf : Nat → List Frame) (pivotFrame : Frame)
    (searchWindow : Int) (f : Frame) :
    f ∈ getVideoFramesInRange videoFramesOf pivotFrame.video_id
        (max 1 (pivotFrame.keyframe_n - searchWindow))
        (pivotFrame.keyframe_n + searchWindow) ↔
      f ∈ videoFramesOf pivotFrame.video_id ∧
        max 1 (pivotFrame.keyframe_n - searchWindow) ≤ f.keyframe_n ∧
        f.keyframe_n ≤ pivotFrame.keyframe_n + searchWindow := by
  simp [getVideoFramesInRange, List.mem_filter]

/-- The concrete frame used to exhibit the boundary behaviour of
`findBestPivot`. -/
def c6Frame : Frame := ⟨1, 1, 500, 0.9⟩

/-- Claim C6, counterexample: with a single event whose similarity to the
candidate is `0`, the maximum similarity is attained at event index `0`, yet
`findBestPivot` returns event index `-1` and no match (the running best
starts at similarity `0` and is only replaced on strict improvement), so the
selector does not return the argmax index nor the candidate itself. -/
theorem C6_counterexample :
    (findBestPivot (fun _ _ => 0) c6Frame [⟨"a"⟩]).eventIndex ≠ 0 ∧
      (findBestPivot (fun _ _ => 0) c6Frame [⟨"a"⟩]).matchFrame ≠ some c6Frame := by
  decide

/-- Claim C6 (amended): whenever the maximum similarity over the events is
strictly positive, `findBestPivot` returns the first (lowest-index) event
attaining that maximum, the maximum similarity value, and the candidate
itself. -/
theorem C6_pivot_selector (sim : Frame → String → ℚ) (candidate : Frame)
    (events : List Event) (hpos : 0 < pivotMaxSim sim candidate events) :
    findBestPivot sim candidate events =
      ⟨some candidate, pivotMaxSim sim candidate events,
        ((events.findIdx fun e =>
          decide (sim candidate e.query = pivotMaxSim sim candidate events)) : Nat)⟩ := by
  have h := findBestPivotGo_lt sim candidate events ⟨none, 0, -1⟩ 0 hpos
  rw [findBestPivot, h]
  unfold pivotMaxSim
  simp

/-- Witness for claim C6: a two-event list with constant similarity `0.7`;
the selector returns the first event, similarity `0.7`, and the candidate. -/
theorem C6_pivot_selector_witness :
    findBestPivot (fun _ _ => 0.7) c6Frame [⟨"a"⟩, ⟨"b"⟩] =
      ⟨some c6Frame, pivotMaxSim (fun _ _ => 0.7) c6Frame [⟨"a"⟩, ⟨"b"⟩],
        (([(⟨"a"⟩ : Event), ⟨"b"⟩].findIdx fun e =>
          decide ((fun _ _ => (0.7 : ℚ)) c6Frame e.query =
            pivotMaxSim (fun _ _ => 0.7) c6Frame [⟨"a"⟩, ⟨"b"⟩])) : Nat)⟩ :=
  C6_pivot_selector (fun _ _ => 0.7) c6Frame [⟨"a"⟩, ⟨"b"⟩] (by with_unfolding_all decide)

/-- Claim C10: a candidate whose best pivot similarity equals the configured
similarityThreshold exactly is not discarded — the rejection guard fires only
on strict inequality, so the boundary candidate proceeds to sequence
building (and validation). -/
theorem C10_boundary_not_discarded (cfg : AlgorithmConfig)
    (sim : Frame → String → ℚ)
    (matrixOf : List Event → List Frame → List (List ℚ))
    (videoFramesOf : Nat → List Frame) (events : List Event)
    (acc : List (List Slot)) (candidate : Frame)
    (heq : (findBestPivot sim candidate events).similarity = cfg.similarityThreshold) :
    processCandidate cfg sim matrixOf videoFramesOf events acc candidate =
      Except.bind
        (buildSequenceAroundPivot cfg matrixOf videoFramesOf candidate
          (findBestPivot sim candidate events).eventIndex events)
        fun sequence =>
          if isSequenceValid cfg sequence events then Except.ok (acc ++ [sequence])
          else Except.ok acc := by
  unfold processCandidate
  rw [if_neg (by rw [heq]; exact lt_irrefl _)]

/-- Concrete data exhibiting the C10 boundary: threshold `0.5`, candidate
with pivot similarity exactly `0.5`. -/
def c10Cfg : AlgorithmConfig := { defaultConfig with similarityThreshold := 0.5 }

def c10Frame : Frame := ⟨7, 2, 100, 0.5⟩

/-- Witness for claim C10: at pivot similarity exactly `0.5 = threshold`, the
candidate is processed through the sequence-building branch. -/
theorem C10_boundary_witness :
    processCandidate c10Cfg (fun _ _ => 0.5) (fun _ _ => [[]]) (fun _ => [])
        [⟨"x"⟩] [] c10Frame =
      Except.bind
        (buildSequenceAroundPivot c10Cfg (fun _ _ => [[]]) (fun _ => []) c10Frame
          (findBestPivot (fun _ _ => 0.5) c10Frame [⟨"x"⟩]).eventIndex [⟨"x"⟩])
        fun sequence =>
          if isSequenceValid c10Cfg sequence [⟨"x"⟩] then Except.ok ([] ++ [sequence])
          else Except.ok [] :=
  C10_boundary_not_discarded c10Cfg (fun _ _ => 0.5) (fun _ _ => [[]]) (fun _ => [])
    [⟨"x"⟩] [] c10Frame (by with_unfolding_all decide)

/-- Claim C9: with every single-pair similarity lookup answered by the
provider and every batch matrix call answered by the batch endpoint (so no
fallback path runs), the discovery, scoring and ranking pipeline yields
identical sequences and scores for any two random sources. -/
theorem C9_determinism (cfg : AlgorithmConfig) (sqrtQ : ℚ → ℚ)
    (provider : Frame → String → Option ℚ)
    (batchApi : List Event → List Frame → Option (List (List ℚ)))
    (rng1 rng2 : Frame → String → ℚ) (videoFramesOf : Nat → List Frame)
    (events : List Event) (candidates : List Frame)
    (hprov : ∀ f q, (provider f q).isSome = true)
    (hbatch : ∀ es fs, (batchApi es fs).isSome = true) :
    runPipelineIO cfg sqrtQ provider batchApi rng1 videoFramesOf events candidates =
      runPipelineIO cfg sqrtQ provider batchApi rng2 videoFramesOf events candidates := by
  have hsim : calculateFrameEventSimilarity provider rng1 =
      calculateFrameEventSimilarity provider rng2 := by
    funext f q
    unfold calculateFrameEventSimilarity
    cases hp : provider f q with
    | some s => rfl
    | none => exact absurd (hprov f q) (by rw [hp]; simp)
  have hmat : computeEventFrameSimilarityMatrix batchApi provider rng1 =
      computeEventFrameSimilarityMatrix batchApi provider rng2 := by
    funext es fs
    unfold computeEventFrameSimilarityMatrix
    cases hb : batchApi es fs with
    | some m => rfl
    | none => exact absurd (hbatch es fs) (by rw [hb]; simp)
  unfold runPipelineIO
  rw [hsim, hmat]

/-- Witness for claim C9: a total provider and total batch endpoint; two
different random sources give identical pipeline output. -/
theorem C9_determinism_witness :
    runPipelineIO defaultConfig (fun _ => 0) (fun _ _ => some 0.5)
        (fun es fs => some (es.map fun _ => fs.map fun _ => 0.5)) (fun _ _ => 0)
        (fun _ => []) [⟨"a"⟩, ⟨"b"⟩] [] =
      runPipelineIO defaultConfig (fun _ => 0) (fun _ _ => some 0.5)
        (fun es fs => some (es.map fun _ => fs.map fun _ => 0.5)) (fun _ _ => 1)
        (fun _ => []) [⟨"a"⟩, ⟨"b"⟩] [] :=
  C9_determinism defaultConfig (fun _ => 0) (fun _ _ => some 0.5)
    (fun es fs => some (es.map fun _ => fs.map fun _ => 0.5)) (fun _ _ => 0)
    (fun _ _ => 1) (fun _ => []) [⟨"a"⟩, ⟨"b"⟩] [] (fun _ _ => rfl) (fun _ _ => rfl)

/-- Claim C2: when `findBestMatchFromMatrix` returns a match for a non-pivot
event, that match preserves temporal order against the already-placed
neighbour on the far side from the pivot, it is one of the eligible
candidates with its similarity taken from the matrix row, and every eligible
candidate of strictly higher matrix similarity violates temporal order — so
the builder accepts the first order-preserving candidate in descending
similarity order (in particular an order-preserving lower-similarity frame
beats an order-violating higher-similarity one). -/
theorem C2_best_first_with_order_check (sequence : Int → Option Slot)
    (eventIdx : Int) (candidateFrames allFrames : List Frame)
    (similarityMatrix : List (List ℚ)) (direction : Bool) (m : MatchResult)
    (hm : findBestMatchFromMatrix sequence eventIdx candidateFrames allFrames
      similarityMatrix direction = some m) :
    maintainsOrder sequence eventIdx direction m.frame = true ∧
      (∃ c ∈ candidatesWithSimilarity (matrixRow similarityMatrix eventIdx)
          allFrames candidateFrames, c.frame = m.frame ∧ c.similarity = m.similarity) ∧
      ∀ c ∈ candidatesWithSimilarity (matrixRow similarityMatrix eventIdx)
          allFrames candidateFrames,
        m.similarity < c.similarity →
          maintainsOrder sequence eventIdx direction c.frame = false :=
  findBestMatch_eq_some hm

/-- The already-placed pivot-adjacent slot of the specification's Scenario C,
at frame number 615. -/
def c2Slot615 : Slot := ⟨⟨20, 3, 615, 0.9⟩, 0.9, 615, 3, true⟩

/-- Scenario C's candidate at frame number 610 (matrix similarity 0.9,
violating order). -/
def c2F610 : Frame := ⟨21, 3, 610, 0.1⟩

/-- Scenario C's candidate at frame number 640 (matrix similarity 0.7,
preserving order). -/
def c2F640 : Frame := ⟨22, 3, 640, 0.1⟩

set_option maxRecDepth 4000 in
/-- Witness for claim C2 (the specification's Scenario C): filling forward
for event 1 with the earlier slot already placed at frame number 615, the
matrix offers frame 610 at similarity 0.9 (order-violating) and frame 640 at
similarity 0.7 (order-preserving); the returned match is the 640 frame with
similarity 0.7, and every higher-similarity candidate violates order. -/
theorem C2_best_first_witness :
    maintainsOrder (fun j => if j = 0 then some c2Slot615 else none) 1 true
        (⟨c2F640, 0.7⟩ : MatchResult).frame = true ∧
      (∃ c ∈ candidatesWithSimilarity
          (matrixRow [[0, 0], [0.9, 0.7]] 1) [c2F610, c2F640] [c2F610, c2F640],
        c.frame = (⟨c2F640, 0.7⟩ : MatchResult).frame ∧
          c.similarity = (⟨c2F640, 0.7⟩ : MatchResult).similarity) ∧
      ∀ c ∈ candidatesWithSimilarity
          (matrixRow [[0, 0], [0.9, 0.7]] 1) [c2F610, c2F640] [c2F610, c2F640],
        (⟨c2F640, 0.7⟩ : MatchResult).similarity < c.similarity →
          maintainsOrder (fun j => if j = 0 then some c2Slot615 else none) 1 true
            c.frame = false :=
  C2_best_first_with_order_check (fun j => if j = 0 then some c2Slot615 else none) 1
    [c2F610, c2F640] [c2F610, c2F640] [[0, 0], [0.9, 0.7]] true ⟨c2F640, 0.7⟩
    (by with_unfolding_all decide)

/-- The five-event query exhibiting the C3 slip. -/
def c3Events : List Event := [⟨"e0"⟩, ⟨"e1"⟩, ⟨"e2"⟩, ⟨"e3"⟩, ⟨"e4"⟩]

/-- Window frame at keyframe 610 of video 1. -/
def c3F610 : Frame := ⟨10, 1, 610, 0.2⟩

/-- Window frame at keyframe 612 of video 1. -/
def c3F612 : Frame := ⟨11, 1, 612, 0.2⟩

/-- The pivot candidate at keyframe 615 of video 1 (pivot event index 4). -/
def c3Pivot : Frame := ⟨12, 1, 615, 0.95⟩

/-- The `/video/1/frames` response for the C3 scenario. -/
def c3Vfo : Nat → List Frame := fun _ => [c3F610, c3F612, c3Pivot]

/-- The similarity matrix for the C3 scenario: events 0–3 score frames
`[610, 612, 615]` as `[0.8, 0.9, 0.1]`. -/
def c3MatrixOf : List Event → List Frame → List (List ℚ) := fun _ _ =>
  [[0.8, 0.9, 0.1], [0.8, 0.9, 0.1], [0.8, 0.9, 0.1], [0.8, 0.9, 0.1], [0.5, 0.5, 0.5]]

set_option maxRecDepth 8000 in
/-- Claim C3 is violated by the code: building around the pivot at event 4
(frame 615), event 3 is assigned frame 612 and event 2 frame 610; event 1
then has no order-preserving candidate and its slot stays unassigned; while
processing event 0 the guard dereferences `sequence[1].frameNumber` on the
`null` slot, so `buildSequenceAroundPivot` throws a TypeError instead of
continuing past the gap. -/
theorem C3_gap_throws :
    buildSequenceAroundPivot defaultConfig c3MatrixOf c3Vfo c3Pivot 4 c3Events =
      Except.error "TypeError: cannot read frameNumber of null" := by
  with_unfolding_all decide

/-- Claim C5: the ranker keeps exactly the scored sequences whose final score
reaches the score threshold (the output is a permutation of the threshold
filter, and every kept result meets the threshold), returns them sorted in
descending order of final score, and preserves the relative input order of
results with exactly equal scores (the filter of the output at any fixed
score equals the filter of the un-sorted kept list at that score). -/
theorem C5_ranker (cfg : AlgorithmConfig) (sqrtQ : ℚ → ℚ)
    (sequences : List (List Slot)) (events : List Event) :
    (∀ x ∈ scoreAndRankSequences cfg sqrtQ sequences events,
        cfg.scoreThreshold ≤ x.score) ∧
      (scoreAndRankSequences cfg sqrtQ sequences events).Perm
        (sequences.filterMap (scoreKeep cfg sqrtQ events)) ∧
      List.Sorted scoreGE (scoreAndRankSequences cfg sqrtQ sequences events) ∧
      ∀ q : ℚ,
        (scoreAndRankSequences cfg sqrtQ sequences events).filter
            (fun x => decide (x.score = q)) =
          (sequences.filterMap (scoreKeep cfg sqrtQ events)).filter
            (fun x => decide (x.score = q)) := by
  refine ⟨?_, List.perm_insertionSort scoreGE _, List.sorted_insertionSort scoreGE _, ?_⟩
  · intro x hx
    have hmem : x ∈ sequences.filterMap (scoreKeep cfg sqrtQ events) :=
      (List.perm_insertionSort scoreGE _).subset hx
    rw [List.mem_filterMap] at hmem
    obtain ⟨s, _, hk⟩ := hmem
    unfold scoreKeep at hk
    by_cases hth : cfg.scoreThreshold ≤
        (calculateEnhancedSequenceScore cfg sqrtQ s events).finalScore
    · rw [if_pos hth] at hk
      injection hk with hk
      subst hk
      exact hth
    · rw [if_neg hth] at hk
      cases hk
  · intro q
    apply filter_insertionSort_eq
    intro a b hpa hr
    rw [decide_eq_true_eq] at hpa
    rw [decide_eq_false_iff_not]
    intro hb
    exact hr (le_of_eq (hb.trans hpa.symm))

lemma processCandidate_preserves_valid (cfg : AlgorithmConfig)
    (sim : Frame → String → ℚ) (matrixOf : List Event → List Frame → List (List ℚ))
    (videoFramesOf : Nat → List Frame) (events : List Event) :
    ∀ (acc : List (List Slot)) (candidate : Frame) (acc2 : List (List Slot)),
      (∀ s ∈ acc, isSequenceValid cfg s events = true) →
      processCandidate cfg sim matrixOf videoFramesOf events acc candidate =
        Except.ok acc2 →
      ∀ s ∈ acc2, isSequenceValid cfg s events = true := by
  intro acc candidate acc2 hacc hp
  unfold processCandidate at hp
  by_cases hth : (findBestPivot sim candidate events).similarity <
      cfg.similarityThreshold
  · rw [if_pos hth] at hp
    injection hp with hp
    subst hp
    exact hacc
  · rw [if_neg hth] at hp
    cases hb : buildSequenceAroundPivot cfg matrixOf videoFramesOf candidate
        (findBestPivot sim candidate events).eventIndex events with
    | error e => rw [hb] at hp; cases hp
    | ok seq =>
      rw [hb] at hp
      simp only [Except.bind] at hp
      by_cases hv : isSequenceValid cfg seq events
      · rw [if_pos hv] at hp
        injection hp with hp
        subst hp
        intro s hs
        rcases List.mem_append.mp hs with h | h
        · exact hacc s h
        · rw [List.mem_singleton.mp h]
          exact hv
      · rw [if_neg hv] at hp
        injection hp with hp
        subst hp
        exact hacc

lemma discoverSequences_valid {cfg : AlgorithmConfig} {sim : Frame → String → ℚ}
    {matrixOf : List Event → List Frame → List (List ℚ)}
    {videoFramesOf : Nat → List Frame} {events : List Event}
    {candidates : List Frame} {seqs : List (List Slot)}
    (hd : discoverSequences cfg sim matrixOf videoFramesOf events candidates =
      Except.ok seqs) :
    ∀ s ∈ seqs, isSequenceValid cfg s events = true := by
  unfold discoverSequences at hd
  exact foldlM_except_inv
    (processCandidate_preserves_valid cfg sim matrixOf videoFramesOf events)
    candidates [] seqs (by simp) hd

lemma mem_scoreAndRank {cfg : AlgorithmConfig} {sqrtQ : ℚ → ℚ}
    {sequences : List (List Slot)} {events : List Event} {r : RankedResult}
    (hr : r ∈ scoreAndRankSequences cfg sqrtQ sequences events) :
    r.sequence ∈ sequences := by
  unfold scoreAndRankSequences at hr
  have hmem : r ∈ sequences.filterMap (scoreKeep cfg sqrtQ events) :=
    (List.perm_insertionSort scoreGE _).subset hr
  rw [List.mem_filterMap] at hmem
  obtain ⟨s, hs, hk⟩ := hmem
  unfold scoreKeep at hk
  by_cases hth : cfg.scoreThreshold ≤
      (calculateEnhancedSequenceScore cfg sqrtQ s events).finalScore
  · rw [if_pos hth] at hk
    injection hk with hk
    subst hk
    exact hs
  · rw [if_neg hth] at hk
    cases hk

/-- Claim C1: every ranked result the pipeline returns to the caller (a
sequence that passed validation and the score threshold) has strictly
increasing frame numbers across consecutive assigned slots in event-index
order. -/
theorem C1_ordering_invariant (cfg : AlgorithmConfig) (sqrtQ : ℚ → ℚ)
    (sim : Frame → String → ℚ)
    (matrixOf : List Event → List Frame → List (List ℚ))
    (videoFramesOf : Nat → List Frame) (events : List Event)
    (candidates : List Frame) (results : List RankedResult) (r : RankedResult)
    (hok : runPipeline cfg sqrtQ sim matrixOf videoFramesOf events candidates =
      Except.ok results)
    (hr : r ∈ results) :
    r.sequence.Chain' fun a b => slotFN a < slotFN b := by
  unfold runPipeline at hok
  cases hd : discoverSequences cfg sim matrixOf videoFramesOf events candidates with
  | error e => rw [hd] at hok; cases hok
  | ok seqs =>
    rw [hd] at hok
    simp only [Except.map] at hok
    injection hok with hok
    subst hok
    have hv := discoverSequences_valid hd r.sequence (mem_scoreAndRank hr)
    unfold isSequenceValid at hv
    by_cases hemp : r.sequence.isEmpty
    · rw [if_pos hemp] at hv; cases hv
    · rw [if_neg hemp] at hv
      by_cases hcomp : (r.sequence.length : ℚ) / (events.length : ℚ) <
          cfg.minSequenceCompleteness
      · rw [if_pos hcomp] at hv; cases hv
      · rw [if_neg hcomp] at hv
        exact (framesStrictlyIncreasing_iff r.sequence).mp hv

/-- Scenario-A-style candidate at keyframe 500 (pivot for event 0). -/
def c1F500 : Frame := ⟨1, 1, 500, 0.9⟩

/-- Scenario-A-style later frame at keyframe 620 (matched to event 1). -/
def c1F620 : Frame := ⟨2, 1, 620, 0.3⟩

/-- Events of the C1 witness run. -/
def c1Events : List Event := [⟨"first"⟩, ⟨"second"⟩]

/-- Similarity matrix of the C1 witness run over frames `[500, 620]`. -/
def c1MatrixOf : List Event → List Frame → List (List ℚ) := fun _ _ =>
  [[0.9, 0.2], [0.1, 0.8]]

/-- Video frames of the C1 witness run. -/
def c1Vfo : Nat → List Frame := fun _ => [c1F500, c1F620]

/-- Placeholder result used only as the `headD` default of the C1 witness. -/
def c1Dummy : RankedResult := ⟨[], 0, ⟨0, 0, 0, 0, 0⟩, ⟨none, none, none, none, 0⟩⟩

/-- The ranked results of the concrete C1 pipeline run. -/
def c1Results : List RankedResult :=
  (runPipeline defaultConfig (fun _ => 0) (fun _ _ => 0.9) c1MatrixOf c1Vfo c1Events
    [c1F500]).toOption.getD []

set_option maxRecDepth 16000 in
/-- Witness for claim C1: on a concrete two-event run returning one ranked
sequence `[frame 500 (pivot), frame 620]`, the returned sequence has strictly
increasing frame numbers. -/
theorem C1_ordering_witness :
    ((c1Results.headD c1Dummy).sequence).Chain' (fun a b => slotFN a < slotFN b) :=
  C1_ordering_invariant defaultConfig (fun _ => 0) (fun _ _ => 0.9) c1MatrixOf c1Vfo
    c1Events [c1F500] c1Results (c1Results.headD c1Dummy)
    (by with_unfolding_all rfl) (by with_unfolding_all decide)

/-- The per-slot property tracked through sequence building: a pivot slot
carries the pivot frame and its own similarity; a non-pivot slot's similarity
is a matrix entry located for its own frame. -/
def slotSimilaritySource (pivotFrame : Frame) (similarityMatrix : List (List ℚ))
    (videoFrames : List Frame) (s : Slot) : Prop :=
  (s.isPivot = true → s.similarity = pivotFrame.similarity ∧ s.frame = pivotFrame) ∧
    (s.isPivot = false → slotFromMatrix similarityMatrix videoFrames s)

lemma newSlot_source {pivotFrame : Frame} {similarityMatrix : List (List ℚ)}
    {videoFrames : List Frame} {seq : Int → Option Slot} {eventIdx : Int}
    {candidateFrames : List Frame} {direction : Bool} {bm : MatchResult}
    (hbm : findBestMatchFromMatrix seq eventIdx candidateFrames videoFrames
      similarityMatrix direction = some bm) :
    slotSimilaritySource pivotFrame similarityMatrix videoFrames
      ⟨bm.frame, bm.similarity, bm.frame.keyframe_n, bm.frame.video_id, false⟩ := by
  constructor
  · intro h; cases h
  · intro _
    obtain ⟨_, ⟨c, hcmem, hcf, hcs⟩, _⟩ := findBestMatch_eq_some hbm
    obtain ⟨_, hfidx, hlt, hsim⟩ := mem_candidatesWithSimilarity hcmem
    unfold slotFromMatrix
    by_cases h0 : 0 ≤ eventIdx
    · refine ⟨eventIdx.toNat, c.frameIdx, ?_, ?_, ?_⟩
      · show List.findIdx? (frameMatches bm.frame) videoFrames = some c.frameIdx
        rw [← hcf]
        exact hfidx
      · unfold matrixRow at hlt
        rw [if_pos h0] at hlt
        exact hlt
      · unfold matrixRow at hsim
        rw [if_pos h0] at hsim
        exact hcs.symm.trans hsim
    · unfold matrixRow at hlt
      rw [if_neg h0] at hlt
      cases hlt

lemma backStep_preserves_source {cfg : AlgorithmConfig}
    {similarityMatrix : List (List ℚ)} {videoFrames : List Frame}
    {minFrameNumber pivotFrameNumber : Int} {pivotFrame : Frame} :
    ∀ (seq : Int → Option Slot) (eventIdx : Int) (seq2 : Int → Option Slot),
      (∀ (i : Int) (s : Slot), seq i = some s →
        slotSimilaritySource pivotFrame similarityMatrix videoFrames s) →
      backStep cfg similarityMatrix videoFrames minFrameNumber pivotFrameNumber
        seq eventIdx = Except.ok seq2 →
      ∀ (i : Int) (s : Slot), seq2 i = some s →
        slotSimilaritySource pivotFrame similarityMatrix videoFrames s := by
  intro seq eventIdx seq2 hseq hstep i s hs
  unfold backStep at hstep
  cases hbm : findBestMatchFromMatrix seq eventIdx
      (videoFrames.filter fun f =>
        decide (minFrameNumber ≤ f.keyframe_n) &&
          decide (f.keyframe_n < pivotFrameNumber))
      videoFrames similarityMatrix false with
  | none => rw [hbm] at hstep; injection hstep with h; subst h; exact hseq i s hs
  | some bm =>
    rw [hbm] at hstep
    dsimp only at hstep
    by_cases hth : cfg.similarityThreshold ≤ bm.similarity
    · rw [if_pos hth] at hstep
      cases hnxt : seq (eventIdx + 1) with
      | none => rw [hnxt] at hstep; cases hstep
      | some nxt =>
        rw [hnxt] at hstep
        dsimp only at hstep
        by_cases hord : bm.frame.keyframe_n < nxt.frameNumber
        · rw [if_pos hord] at hstep
          injection hstep with h
          subst h
          unfold setSlot at hs
          by_cases hij : i = eventIdx
          · rw [if_pos hij] at hs
            injection hs with hs
            subst hs
            exact newSlot_source hbm
          · rw [if_neg hij] at hs
            exact hseq i s hs
        · rw [if_neg hord] at hstep; injection hstep with h; subst h; exact hseq i s hs
    · rw [if_neg hth] at hstep; injection hstep with h; subst h; exact hseq i s hs

lemma forwardStep_preserves_source {cfg : AlgorithmConfig}
    {similarityMatrix : List (List ℚ)} {videoFrames : List Frame}
    {maxFrameNumber pivotFrameNumber : Int} {pivotFrame : Frame} :
    ∀ (seq : Int → Option Slot) (eventIdx : Int) (seq2 : Int → Option Slot),
      (∀ (i : Int) (s : Slot), seq i = some s →
        slotSimilaritySource pivotFrame similarityMatrix videoFrames s) →
      forwardStep cfg similarityMatrix videoFrames maxFrameNumber pivotFrameNumber
        seq eventIdx = Except.ok seq2 →
      ∀ (i : Int) (s : Slot), seq2 i = some s →
        slotSimilaritySource pivotFrame similarityMatrix videoFrames s := by
  intro seq eventIdx seq2 hseq hstep i s hs
  unfold forwardStep at hstep
  cases hbm : findBestMatchFromMatrix seq eventIdx
      (videoFrames.filter fun f =>
        decide (pivotFrameNumber < f.keyframe_n) &&
          decide (f.keyframe_n ≤ maxFrameNumber))
      videoFrames similarityMatrix true with
  | none => rw [hbm] at hstep; injection hstep with h; subst h; exact hseq i s hs
  | some bm =>
    rw [hbm] at hstep
    dsimp only at hstep
    by_cases hth : cfg.similarityThreshold ≤ bm.similarity
    · rw [if_pos hth] at hstep
      cases hprev : seq (eventIdx - 1) with
      | none => rw [hprev] at hstep; cases hstep
      | some prev =>
        rw [hprev] at hstep
        dsimp only at hstep
        by_cases hord : prev.frameNumber < bm.frame.keyframe_n
        · rw [if_pos hord] at hstep
          injection hstep with h
          subst h
          unfold setSlot at hs
          by_cases hij : i = eventIdx
          · rw [if_pos hij] at hs
            injection hs with hs
            subst hs
            exact newSlot_source hbm
          · rw [if_neg hij] at hs
            exact hseq i s hs
        · rw [if_neg hord] at hstep; injection hstep with h; subst h; exact hseq i s hs
    · rw [if_neg hth] at hstep; injection hstep with h; subst h; exact hseq i s hs

lemma initSeq_source {pivotFrame : Frame} {pivotEventIndex : Int}
    {similarityMatrix : List (List ℚ)} {videoFrames : List Frame} :
    ∀ (i : Int) (s : Slot), initSeq pivotFrame pivotEventIndex i = some s →
      slotSimilaritySource pivotFrame similarityMatrix videoFrames s := by
  intro i s hi
  unfold initSeq at hi
  by_cases hip : i = pivotEventIndex
  · rw [if_pos hip] at hi
    injection hi with hi
    subst hi
    exact ⟨fun _ => ⟨rfl, rfl⟩, fun hfalse => by cases hfalse⟩
  · rw [if_neg hip] at hi
    cases hi

/-- Claim C8: in every sequence built around a pivot, the pivot slot carries
the candidate frame's own similarity score (and the candidate frame itself),
while every non-pivot slot's similarity is an entry of the precomputed
event-by-frame similarity matrix, at the column located for the slot's own
frame within the window. -/
theorem C8_similarity_sources (cfg : AlgorithmConfig)
    (matrixOf : List Event → List Frame → List (List ℚ))
    (videoFramesOf : Nat → List Frame) (pivotFrame : Frame)
    (pivotEventIndex : Int) (events : List Event) (slots : List Slot)
    (hok : buildSequenceAroundPivot cfg matrixOf videoFramesOf pivotFrame
      pivotEventIndex events = Except.ok slots) :
    ∀ s ∈ slots,
      (s.isPivot = true → s.similarity = pivotFrame.similarity ∧ s.frame = pivotFrame) ∧
        (s.isPivot = false →
          slotFromMatrix (matrixOf events (windowFrames cfg videoFramesOf pivotFrame))
            (windowFrames cfg videoFramesOf pivotFrame) s) := by
  intro s hs
  unfold buildSequenceAroundPivot at hok
  by_cases hemp : (windowFrames cfg videoFramesOf pivotFrame).isEmpty
  · rw [if_pos hemp] at hok
    injection hok with hok
    subst hok
    rw [List.mem_filterMap] at hs
    obtain ⟨i, _, hi⟩ := hs
    exact initSeq_source _ _ hi
  · rw [if_neg hemp] at hok
    cases hback : ((List.range pivotEventIndex.toNat).reverse.map fun k =>
        (k : Int)).foldlM
        (backStep cfg (matrixOf events (windowFrames cfg videoFramesOf pivotFrame))
          (windowFrames cfg videoFramesOf pivotFrame)
          (max 1 (pivotFrame.keyframe_n - cfg.searchWindow)) pivotFrame.keyframe_n)
        (initSeq pivotFrame pivotEventIndex) with
    | error e => rw [hback] at hok; cases hok
    | ok seqB =>
      rw [hback] at hok
      simp only [Except.bind] at hok
      cases hforw : (((List.range events.length).map fun k => (k : Int)).filter
          fun j => decide (pivotEventIndex < j)).foldlM
          (forwardStep cfg (matrixOf events (windowFrames cfg videoFramesOf pivotFrame))
            (windowFrames cfg videoFramesOf pivotFrame)
            (pivotFrame.keyframe_n + cfg.searchWindow) pivotFrame.keyframe_n)
          seqB with
      | error e => rw [hforw] at hok; cases hok
      | ok seqF =>
        rw [hforw] at hok
        simp only [Except.bind] at hok
        injection hok with hok
        subst hok
        have hB := foldlM_except_inv backStep_preserves_source _ _ _
          (@initSeq_source pivotFrame pivotEventIndex
            (matrixOf events (windowFrames cfg videoFramesOf pivotFrame))
            (windowFrames cfg videoFramesOf pivotFrame)) hback
        have hF := foldlM_except_inv forwardStep_preserves_source _ _ _ hB hforw
        rw [List.mem_filterMap] at hs
        obtain ⟨i, _, hi⟩ := hs
        exact hF _ _ hi

/-- Pivot candidate of the C8 witness build. -/
def c8F500 : Frame := ⟨31, 4, 500, 0.9⟩

/-- Second window frame of the C8 witness build. -/
def c8F620 : Frame := ⟨32, 4, 620, 0.3⟩

/-- Events of the C8 witness build. -/
def c8Events : List Event := [⟨"p"⟩, ⟨"q"⟩]

/-- Similarity matrix of the C8 witness build. -/
def c8MatrixOf : List Event → List Frame → List (List ℚ) := fun _ _ =>
  [[0.9, 0.2], [0.1, 0.8]]

/-- Video frames of the C8 witness build. -/
def c8Vfo : Nat → List Frame := fun _ => [c8F500, c8F620]

/-- The slots of the concrete C8 build (pivot at event 0, match at event 1). -/
def c8Slots : List Slot :=
  (buildSequenceAroundPivot defaultConfig c8MatrixOf c8Vfo c8F500 0
    c8Events).toOption.getD []

/-- Placeholder slot used only as the `headD` default of the C8 witness. -/
def c8Dummy : Slot := ⟨c8F620, 0, 0, 0, false⟩

set_option maxRecDepth 16000 in
/-- Witness for claim C8: in the concrete build `[frame 500 (pivot),
frame 620]`, the head slot (the pivot) carries the candidate's own
similarity, and were it a non-pivot slot its similarity would come from the
matrix. -/
theorem C8_similarity_sources_witness :
    ((c8Slots.headD c8Dummy).isPivot = true →
        (c8Slots.headD c8Dummy).similarity = c8F500.similarity ∧
          (c8Slots.headD c8Dummy).frame = c8F500) ∧
      ((c8Slots.headD c8Dummy).isPivot = false →
        slotFromMatrix (c8MatrixOf c8Events (windowFrames defaultConfig c8Vfo c8F500))
          (windowFrames defaultConfig c8Vfo c8F500) (c8Slots.headD c8Dummy)) :=
  C8_similarity_sources defaultConfig c8MatrixOf c8Vfo c8F500 0 c8Events c8Slots
    (by with_unfolding_all rfl) (c8Slots.headD c8Dummy) (by with_unfolding_all decide)

lemma sum_le_length (l : List ℚ) (h : ∀ x ∈ l, x ≤ 1) : l.sum ≤ (l.length : ℚ) := by
  induction l with
  | nil => simp
  | cons x t ih =>
    rw [List.sum_cons, List.length_cons]
    push_cast
    have hx := h x (List.mem_cons_self x t)
    have ht := ih fun y hy => h y (List.mem_cons_of_mem x hy)
    linarith

lemma consecutivePairs_length (l : List Slot) :
    (consecutivePairs l).length = l.length - 1 := by
  unfold consecutivePairs
  rw [List.length_zip, List.length_tail]
  exact min_eq_right (Nat.sub_le _ _)

lemma temporal_penalty_le_one (cfg : AlgorithmConfig) (sequence : List Slot)
    (h1 : 1 < sequence.length) :
    ((consecutivePairs sequence).map fun p =>
        min (((slotFN p.2 - slotFN p.1 : Int) : ℚ) / cfg.maxTemporalGap) 1).sum /
      ((sequence.length : ℚ) - 1) ≤ 1 := by
  have hpos : (0 : ℚ) < (sequence.length : ℚ) - 1 := by
    have h2 : (2 : ℚ) ≤ (sequence.length : ℚ) := by exact_mod_cast h1
    linarith
  rw [div_le_one hpos]
  have hsum := sum_le_length
    ((consecutivePairs sequence).map fun p =>
      min (((slotFN p.2 - slotFN p.1 : Int) : ℚ) / cfg.maxTemporalGap) 1)
    (by
      intro x hx
      rw [List.mem_map] at hx
      obtain ⟨p, _, hp⟩ := hx
      rw [← hp]
      exact min_le_right _ _)
  have hlen : (((consecutivePairs sequence).map fun p =>
      min (((slotFN p.2 - slotFN p.1 : Int) : ℚ) / cfg.maxTemporalGap) 1).length : ℚ) =
      (sequence.length : ℚ) - 1 := by
    rw [List.length_map, consecutivePairs_length]
    have hge : 1 ≤ sequence.length := le_of_lt h1
    push_cast [Nat.cast_sub hge]
    ring
  rw [hlen] at hsum
  exact hsum

lemma calculateVariance_eq_specStddev (sqrtQ : ℚ → ℚ) (xs : List ℚ)
    (h : xs.isEmpty = false) : calculateVariance sqrtQ xs = specStddev sqrtQ xs := by
  unfold calculateVariance specStddev
  rw [if_neg (by rw [h]; exact Bool.false_ne_true)]

/-- Claim C4: for every non-empty sequence the scorer's final score equals
`0.4·baseSimilarity + temporalWeight·temporal + completenessWeight·completeness
+ 0.1·consistency + 0.1·order`, with baseSimilarity the mean slot similarity,
temporal `1 − mean(min(gap/maxTemporalGap, 1))` over consecutive gaps (`1` for
single-slot sequences, and with no extra clipping: the mean of the capped
gaps never exceeds `1`), completeness the ratio `len(sequence)/len(events)`
(halved below the completeness floor), consistency
`max(0, 1 − stddev(similarities))`, and order the fraction of consecutive
pairs in strictly increasing frame-number order. -/
theorem C4_score_formula (cfg : AlgorithmConfig) (sqrtQ : ℚ → ℚ)
    (sequence : List Slot) (events : List Event) (hne : sequence ≠ []) :
    (calculateEnhancedSequenceScore cfg sqrtQ sequence events).finalScore =
      0.4 * specBaseSimilarity sequence +
        cfg.temporalWeight * specTemporal cfg sequence +
        cfg.completenessWeight * specCompleteness cfg sequence events +
        0.1 * specConsistency sqrtQ sequence + 0.1 * specOrder sequence := by
  have hemp : sequence.isEmpty = false := by
    cases sequence with
    | nil => exact absurd rfl hne
    | cons a t => rfl
  unfold calculateEnhancedSequenceScore
  rw [if_neg (by rw [hemp]; exact Bool.false_ne_true)]
  dsimp only
  rw [calculateVariance_eq_specStddev sqrtQ _ (by
    cases sequence with
    | nil => exact absurd rfl hne
    | cons a t => rfl)]
  unfold specBaseSimilarity specTemporal specCompleteness specConsistency specOrder
  simp only [List.length_map]
  by_cases h1 : 1 < sequence.length
  · rw [if_pos h1, if_pos h1, if_neg (not_le.mpr h1), if_neg (not_le.mpr h1)]
    rw [max_eq_right (by
      have := temporal_penalty_le_one cfg sequence h1
      linarith)]
    by_cases h2 : cfg.minSequenceCompleteness ≤
        (sequence.length : ℚ) / (events.length : ℚ)
    · rw [if_pos h2, if_pos h2]
      ring
    · rw [if_neg h2, if_neg h2]
      ring
  · rw [if_neg h1, if_neg h1, if_pos (not_lt.mp h1), if_pos (not_lt.mp h1)]
    by_cases h2 : cfg.minSequenceCompleteness ≤
        (sequence.length : ℚ) / (events.length : ℚ)
    · rw [if_pos h2, if_pos h2]
      ring
    · rw [if_neg h2, if_neg h2]
      ring

/-- First slot of the C4 witness sequence (pivot at frame 500). -/
def c4Slot1 : Slot := ⟨⟨41, 5, 500, 0.9⟩, 0.9, 500, 5, true⟩

/-- Second slot of the C4 witness sequence (frame 620). -/
def c4Slot2 : Slot := ⟨⟨42, 5, 620, 0.8⟩, 0.8, 620, 5, false⟩

/-- Witness for claim C4: the formula holds on a concrete two-slot sequence
under the default configuration (square root taken as the identity map on
this concrete variance). -/
theorem C4_score_formula_witness :
    (calculateEnhancedSequenceScore defaultConfig id [c4Slot1, c4Slot2]
        [⟨"u"⟩, ⟨"v"⟩]).finalScore =
      0.4 * specBaseSimilarity [c4Slot1, c4Slot2] +
        defaultConfig.temporalWeight * specTemporal defaultConfig [c4Slot1, c4Slot2] +
        defaultConfig.completenessWeight *
          specCompleteness defaultConfig [c4Slot1, c4Slot2] [⟨"u"⟩, ⟨"v"⟩] +
        0.1 * specConsistency id [c4Slot1, c4Slot2] +
        0.1 * specOrder [c4Slot1, c4Slot2] :=
  C4_score_formula defaultConfig id [c4Slot1, c4Slot2] [⟨"u"⟩, ⟨"v"⟩] (by simp)
